import Mathlib

/-!
Verification of the AutoPM-AI frontend against its design specification.

The embedding below translates the repository's TypeScript/React source into
Lean definitions:

* `UploadedFile`, `handleFilesAdded`, `handleRemoveFile` — the File Collector
  (`FileUpload` component, src/unnamed/part_001).
* `jsTrim`, `handleSubmit` — the Query Input guard
  (`RecommendationInput.tsx`, `handleSubmit`).
* `ResultsState`, `mkFormData`, `mkRequest`, `fetchStart`, `applyResponse`,
  `render` — the Recommendation Request Orchestrator
  (`RecommendationResults.tsx`, `fetchRecommendations` and the component's
  early-return render chain).
* `AppState`, `handleQuerySubmit`, `showsUploadPrompt` etc. — the App shell
  (src/unnamed/part_000) deciding which results region is displayed.
* `World`, `stepWorld`, `runWorld` — an event-trace semantics tying
  submissions (effect runs) and response arrivals together; responses apply
  unconditionally, exactly as the source's promise continuations do (the
  source has no generation counter or abort signal).

JSON response bodies are modelled by `Body`: either `malformed` (res.json()
rejects, carrying the engine's parse-error message) or `json detail recs`,
the `detail` and `recommendations` fields when present as strings.  This
restriction to string-or-absent fields covers every case the specification's
claims quantify over.
-/

namespace AutoPM

/-- An uploaded file: opaque blob identified by name, size and MIME type
(spec §3 UploadedFile; the browser `File` object in the source). -/
structure UploadedFile where
  name : String
  size : Nat
  mimeType : String
deriving DecidableEq, Repr

/-! ### File Collector (`FileUpload`, src/unnamed/part_001) -/

/-- Source `handleDrop` / `handleFileSelect`: `onFilesChange([...uploadedFiles, ...files])`
(part_001 lines 228-229 and 234-235) — append the newly selected files after
the existing ones. -/
def handleFilesAdded (uploadedFiles newFiles : List UploadedFile) :
    List UploadedFile :=
  uploadedFiles ++ newFiles

/-- Source `handleRemoveFile` (part_001 lines 239-242):
`uploadedFiles.filter((_, i) => i !== index)` — keep every element whose
position differs from `index`.  The JS index is a number that may be
negative or past the end, hence `Int`. -/
def handleRemoveFile (uploadedFiles : List UploadedFile) (index : Int) :
    List UploadedFile :=
  ((uploadedFiles.enum.filter (fun p => ¬ ((p.1 : Int) = index))).map Prod.snd)

/-- A File Collector operation: the user either adds a batch of files
(picker or drag-drop) or removes the entry at one index. -/
inductive FileOp where
  | add (newFiles : List UploadedFile)
  | remove (index : Nat)
deriving DecidableEq, Repr

/-- Apply one collector operation to the current file list. -/
def applyFileOp (files : List UploadedFile) : FileOp → List UploadedFile
  | .add newFiles => handleFilesAdded files newFiles
  | .remove index => handleRemoveFile files (index : Int)

/-- Run a sequence of collector operations from a starting list. -/
def applyFileOps (files : List UploadedFile) (ops : List FileOp) :
    List UploadedFile :=
  ops.foldl applyFileOp files

/-- All files inserted by a sequence of operations, in chronological order. -/
def insertedFiles (ops : List FileOp) : List UploadedFile :=
  (ops.map (fun op => match op with
    | .add newFiles => newFiles
    | .remove _ => [])).flatten

/-! ### Query Input (`RecommendationInput.tsx`) -/

/-- JavaScript `String.prototype.trim` whitespace class: the ECMAScript
WhiteSpace and LineTerminator characters - TAB, LF, VT, FF, CR, SPACE,
NBSP (U+00A0), the Ogham space mark U+1680, the Zs range U+2000-U+200A,
the line and paragraph separators U+2028 and U+2029, the narrow no-break
space U+202F, the medium mathematical space U+205F, the ideographic space
U+3000, and the zero-width no-break space U+FEFF. -/
def isJsWhitespace (c : Char) : Bool :=
  c = '\t' || c = '\n' || c = '\x0b' || c = '\x0c' || c = '\r' ||
  c = ' ' || c.toNat = 0x00A0 || c.toNat = 0x1680 ||
  (0x2000 <= c.toNat && c.toNat <= 0x200A) ||
  c.toNat = 0x2028 || c.toNat = 0x2029 || c.toNat = 0x202F ||
  c.toNat = 0x205F || c.toNat = 0x3000 || c.toNat = 0xFEFF

/-- JavaScript `query.trim()` on the underlying character list: drop leading and
trailing whitespace. -/
def jsTrimList (l : List Char) : List Char :=
  ((l.dropWhile isJsWhitespace).reverse.dropWhile isJsWhitespace).reverse

/-- Source `handleSubmit` (RecommendationInput.tsx lines 114-119):
`if (query.trim()) onSubmit(query)` — the callback fires only when the
trimmed query is non-empty (JS truthiness of a string), and receives the
original untrimmed query. -/
def handleSubmit (query : String) : Option String :=
  if jsTrimList query.data = [] then none else some query

/-! ### Recommendation Request Orchestrator (`RecommendationResults.tsx`) -/

/-- The component's three `useState` hooks (lines 13-15):
`recommendations` (string or null), `loading` (boolean, initially true),
`error` (string or null). -/
structure ResultsState where
  recommendations : Option String
  loading : Bool
  error : Option String
deriving DecidableEq, Repr

/-- Initial hook values: `useState(null)`, `useState(true)`, `useState(null)`. -/
def initResultsState : ResultsState :=
  { recommendations := none, loading := true, error := none }

/-- A multipart form value: the `query` text field or one `files` binary part. -/
inductive FormValue where
  | text (s : String)
  | file (f : UploadedFile)
deriving DecidableEq, Repr

/-- Lines 25-27: `formData.append('query', query)` then
`files.forEach((file) => formData.append('files', file))` — the form entries
in append order. -/
def mkFormData (query : String) (files : List UploadedFile) :
    List (String × FormValue) :=
  ("query", FormValue.text query) :: files.map (fun f => ("files", FormValue.file f))

/-- An issued HTTP request (lines 29-32): the target URL, the method, and the
multipart body. -/
structure HttpRequest where
  url : String
  method : String
  body : List (String × FormValue)
deriving DecidableEq, Repr

/-- Lines 29-32: `fetch(` followed by the interpolation of `API_URL || ''`
and `/api/recommendations`, with `method: 'POST'` and the form body.
`apiUrl` is the module constant `API_URL = import.meta.env.VITE_API_URL || ''`
(line 5); since it is already defaulted to the empty string,
the inner `API_URL || ''` equals `API_URL` itself. -/
def mkRequest (apiUrl : String) (query : String) (files : List UploadedFile) :
    HttpRequest :=
  { url := apiUrl ++ "/api/recommendations"
    method := "POST"
    body := mkFormData query files }

/-- The body of a settled HTTP response as seen through `res.json()`:
either the parse rejects (`malformed`, carrying the engine's parse-error
message), or it yields an object whose `detail` and `recommendations`
fields are given when present as strings. -/
inductive Body where
  | malformed (parseErrorMessage : String)
  | json (detail : Option String) (recommendations : Option String)
deriving DecidableEq, Repr

/-- A settled HTTP response: `res.ok` (2xx), `res.statusText`, and the body. -/
structure HttpResponse where
  ok : Bool
  statusText : String
  body : Body
deriving DecidableEq, Repr

/-- JS truthiness of a nullable string: `null` and `""` are falsy. -/
def strTruthy : Option String → Bool
  | none => false
  | some s => s ≠ ""

/-- The synchronous prefix of `fetchRecommendations` once `files` is known
non-empty (lines 21-22): `setLoading(true); setError(null)`. -/
def fetchStart (s : ResultsState) : ResultsState :=
  { s with loading := true, error := none }

/-- The continuation of `fetchRecommendations` once the fetch resolves
(lines 34-45):

* `!res.ok` (line 34): `err = await res.json().catch(() => ({ detail:
  res.statusText }))` — a malformed body is replaced by an object whose
  `detail` is the status text; then `throw new Error(err.detail ||
  'Failed to get recommendations')` — a missing or falsy (empty) `detail`
  falls back to the generic message.  The catch block (lines 41-42) turns
  the thrown `Error` into `setError(e.message)`.
* `res.ok` with a malformed body: `await res.json()` (line 39) rejects with
  a `SyntaxError`; the catch block stores its message.
* `res.ok` with parsed JSON: `setRecommendations(data.recommendations)`
  (line 40) — `undefined` when the field is absent, i.e. `none`.

The `finally` block (line 44) sets `loading` to false on every path. -/
def applyResponse (s : ResultsState) (res : HttpResponse) : ResultsState :=
  if !res.ok then
    let errDetail : Option String :=
      match res.body with
      | .malformed _ => some res.statusText
      | .json detail _ => detail
    let msg : String :=
      match errDetail with
      | some d => if d = "" then "Failed to get recommendations" else d
      | none => "Failed to get recommendations"
    { s with error := some msg, loading := false }
  else
    match res.body with
    | .malformed parseErrorMessage =>
        { s with error := some parseErrorMessage, loading := false }
    | .json _ recs =>
        { s with recommendations := recs, loading := false }

/-- Which view the component returns. -/
inductive Display where
  | loadingView
  | errorView (message : String)
  | blank
  | successView (markdown : String)
deriving DecidableEq, Repr

/-- The component's early-return chain (lines 51-101):
`if (loading) return <spinner>` (line 51); `if (error) return <error box>`
(line 62, JS truthiness so `""` would not match); `if (!recommendations)
return null` (line 71, null and `""` are both falsy); otherwise the
markdown view (line 73). -/
def render (s : ResultsState) : Display :=
  if s.loading then Display.loadingView
  else if strTruthy s.error then Display.errorView (s.error.getD "")
  else if ¬ strTruthy s.recommendations then Display.blank
  else Display.successView (s.recommendations.getD "")

/-! ### Event-trace semantics of the orchestrator

A submission is a run of the `useEffect` body with a fresh `(query, files)`
snapshot; each run with a non-empty file list issues exactly one request
(lines 24-32).  The source attaches no generation counter or abort signal
to the request, so when a response settles its continuation (lines 34-45)
runs against whatever the component state is at that moment — these are the
`respond` events below, applied unconditionally via `applyResponse`. -/

/-- A submission snapshot: the query and files captured by the effect. -/
structure Submission where
  query : String
  files : List UploadedFile
deriving DecidableEq, Repr

/-- An orchestrator event: an effect run, or the arrival of the response to
the `reqIndex`-th previously issued request. -/
inductive Event where
  | submit (sub : Submission)
  | respond (reqIndex : Nat) (res : HttpResponse)
deriving DecidableEq, Repr

/-- The world: the component state plus the requests issued so far, in
issue order, under a fixed `API_URL`. -/
structure World where
  apiUrl : String
  comp : ResultsState
  requests : List HttpRequest
deriving DecidableEq, Repr

/-- The world at component mount. -/
def initWorld (apiUrl : String) : World :=
  { apiUrl := apiUrl, comp := initResultsState, requests := [] }

/-- One event step.  `submit` with zero files is the guard on line 19
(`if (files.length === 0) return`): no state change and no request.
`submit` with files issues one request after `fetchStart`.  `respond`
applies the response continuation to the current state; a `reqIndex` that
names no issued request is ignored (no such response can exist). -/
def stepWorld (w : World) : Event → World
  | .submit sub =>
      if sub.files = [] then w
      else
        { w with
          comp := fetchStart w.comp
          requests := w.requests ++ [mkRequest w.apiUrl sub.query sub.files] }
  | .respond reqIndex res =>
      if reqIndex < w.requests.length then
        { w with comp := applyResponse w.comp res }
      else w

/-- Run a trace of events from a world. -/
def runWorld (w : World) (events : List Event) : World :=
  events.foldl stepWorld w

/-! ### App shell (src/unnamed/part_000) -/

/-- The App's `useState` hooks (part_000 lines 48-51). -/
structure AppState where
  uploadedFiles : List UploadedFile
  query : String
  showResults : Bool
  isInteracting : Bool
deriving DecidableEq, Repr

/-- Initial App state: no files, empty query, flags false. -/
def initAppState : AppState :=
  { uploadedFiles := [], query := "", showResults := false,
    isInteracting := false }

/-- Source `handleQuerySubmit` (part_000 lines 53-57): store the query, show
results, and mark the UI as interacting. -/
def handleQuerySubmit (s : AppState) (submittedQuery : String) : AppState :=
  { s with query := submittedQuery, showResults := true, isInteracting := true }

/-- Part_000 line 134: the in-card `RecommendationResults` renders when
`showResults && uploadedFiles.length > 0 && !isInteracting`. -/
def showsResultsInCard (s : AppState) : Bool :=
  s.showResults && decide (0 < s.uploadedFiles.length) && !s.isInteracting

/-- Part_000 line 143: the prompt-to-upload message
("Upload documents to get AI-powered recommendations") renders when
`showResults && uploadedFiles.length === 0 && !isInteracting`. -/
def showsUploadPrompt (s : AppState) : Bool :=
  s.showResults && decide (s.uploadedFiles.length = 0) && !s.isInteracting

/-- Part_000 line 152: the above-input `RecommendationResults` renders when
`isInteracting && showResults && uploadedFiles.length > 0`. -/
def showsResultsAbove (s : AppState) : Bool :=
  s.isInteracting && s.showResults && decide (0 < s.uploadedFiles.length)

/-- The four conditions of the component's early-return chain, as standalone
predicates on the hook state: line 51 returns the spinner when `loading`. -/
def showsLoading (s : ResultsState) : Bool :=
  s.loading

/-- Line 62: the error box renders when the chain reaches it (`!loading`)
and `error` is truthy. -/
def showsError (s : ResultsState) : Bool :=
  !s.loading && strTruthy s.error

/-- Line 71: the component returns `null` when the chain reaches it and
`recommendations` is falsy — a blank region. -/
def showsBlankState (s : ResultsState) : Bool :=
  !s.loading && !strTruthy s.error && !strTruthy s.recommendations

/-- Line 73: the markdown view renders in the remaining case. -/
def showsSuccess (s : ResultsState) : Bool :=
  !s.loading && !strTruthy s.error && strTruthy s.recommendations

/-- Whether a display belongs to the specification's three-variant union
{Loading, Error(message), Success(markdown)} (spec §3
RecommendationResult); the source's `return null` state does not. -/
def isUnionVariant : Display → Bool
  | Display.blank => false
  | _ => true

/-- User interactions that mutate the App's hook state: a query submission
(part_000 line 53) or a change of the uploaded-file list (part_000 line 124,
`onFilesChange={setUploadedFiles}` through the `FileUpload` handlers). -/
inductive AppEvent where
  | querySubmit (q : String)
  | setFiles (files : List UploadedFile)
deriving DecidableEq, Repr

/-- Apply one App interaction. -/
def stepApp (s : AppState) : AppEvent → AppState
  | .querySubmit q => handleQuerySubmit s q
  | .setFiles fs => { s with uploadedFiles := fs }

/-- Run a sequence of App interactions from a state. -/
def runApp (s : AppState) (events : List AppEvent) : AppState :=
  events.foldl stepApp s

/-! ## Helper lemmas about the File Collector -/

/-- Filtering an enumeration by position and keeping the elements never
invents or reorders entries: the result is a sublist of the original. -/
theorem filter_enumFrom_map_sublist (xs : List UploadedFile) (n : Nat)
    (p : Nat × UploadedFile → Bool) :
    (((List.enumFrom n xs).filter p).map Prod.snd).Sublist xs := by
  induction xs generalizing n with
  | nil => simp
  | cons x xs ih =>
      by_cases hp : p (n, x)
      · simpa [List.enumFrom, List.filter_cons, hp] using
          List.Sublist.cons₂ x (ih (n + 1))
      · simpa [List.enumFrom, List.filter_cons, hp] using
          List.Sublist.cons x (ih (n + 1))

/-- When the removal index matches no position of the enumeration, the
position filter keeps everything. -/
theorem filter_enumFrom_skip (xs : List UploadedFile) (n : Nat) (index : Int)
    (h : ∀ i : Nat, i < xs.length → ¬ (((n + i : Nat) : Int) = index)) :
    ((List.enumFrom n xs).filter
      (fun p => ¬ ((p.1 : Int) = index))).map Prod.snd = xs := by
  induction xs generalizing n with
  | nil => simp
  | cons x xs ih =>
      have hhead : ¬ ((n : Int) = index) := by
        have := h 0 (by simp)
        simpa using this
      have htail : ∀ i : Nat, i < xs.length →
          ¬ (((n + 1 + i : Nat) : Int) = index) := by
        intro i hi
        have := h (i + 1) (by simpa using Nat.succ_lt_succ hi)
        have harith : n + 1 + i = n + (i + 1) := by omega
        simpa [harith] using this
      simp [List.enumFrom, List.filter_cons, hhead]
      simpa using ih (n + 1) htail

/-- When the removal index is exactly position `n + i` of the enumeration,
the position filter drops that one entry and keeps everything else. -/
theorem filter_enumFrom_hit (xs : List UploadedFile) (n i : Nat)
    (index : Int) (hidx : index = ((n + i : Nat) : Int)) (hi : i < xs.length) :
    ((List.enumFrom n xs).filter
      (fun p => ¬ ((p.1 : Int) = index))).map Prod.snd
      = xs.take i ++ xs.drop (i + 1) := by
  induction xs generalizing n i with
  | nil => simp at hi
  | cons x xs ih =>
      cases i with
      | zero =>
          have hhead : ((n : Int) = index) := by simp [hidx]
          have htail : ∀ j : Nat, j < xs.length →
              ¬ (((n + 1 + j : Nat) : Int) = index) := by
            intro j _
            rw [hidx]
            push_cast
            omega
          simp [List.enumFrom, List.filter_cons, hhead]
          simpa using filter_enumFrom_skip xs (n + 1) index htail
      | succ j =>
          have hhead : ¬ ((n : Int) = index) := by
            rw [hidx]
            push_cast
            omega
          have hidx' : index = ((n + 1 + j : Nat) : Int) := by
            rw [hidx]
            push_cast
            omega
          have hj : j < xs.length := by simpa using Nat.lt_of_succ_lt_succ hi
          simp [List.enumFrom, List.filter_cons, hhead]
          simpa using ih (n + 1) j hidx' hj

/-- In-bounds removal: `handleRemoveFile` at a valid natural index deletes
exactly that entry, shifting subsequent entries down by one. -/
theorem handleRemoveFile_inBounds (xs : List UploadedFile) (i : Nat)
    (hi : i < xs.length) :
    handleRemoveFile xs (i : Int) = xs.take i ++ xs.drop (i + 1) := by
  unfold handleRemoveFile
  have : xs.enum = List.enumFrom 0 xs := rfl
  rw [this]
  exact filter_enumFrom_hit xs 0 i (i : Int) (by push_cast; omega) hi

/-- Out-of-bounds removal: a negative index or one at least the length
leaves the list unchanged. -/
theorem handleRemoveFile_outOfBounds (xs : List UploadedFile) (index : Int)
    (h : index < 0 ∨ (xs.length : Int) ≤ index) :
    handleRemoveFile xs index = xs := by
  unfold handleRemoveFile
  have : xs.enum = List.enumFrom 0 xs := rfl
  rw [this]
  refine filter_enumFrom_skip xs 0 index ?_
  intro i hi
  rcases h with h | h
  · push_cast
    omega
  · have : (i : Int) < (xs.length : Int) := by exact_mod_cast hi
    push_cast
    omega

/-- Removal never reorders or duplicates: the result is a sublist of the
input. -/
theorem handleRemoveFile_sublist (xs : List UploadedFile) (index : Int) :
    (handleRemoveFile xs index).Sublist xs :=
  filter_enumFrom_map_sublist xs 0 _

/-- Folding collector operations preserves the invariant that the current
list is a sublist of the accumulated insertions. -/
theorem applyFileOps_sublist (ops : List FileOp)
    (cur acc : List UploadedFile) (h : cur.Sublist acc) :
    (applyFileOps cur ops).Sublist (acc ++ insertedFiles ops) := by
  induction ops generalizing cur acc with
  | nil => simpa [applyFileOps, insertedFiles] using h
  | cons op ops ih =>
      cases op with
      | add newFiles =>
          have step : (applyFileOps (cur ++ newFiles) ops).Sublist
              ((acc ++ newFiles) ++ insertedFiles ops) :=
            ih (cur ++ newFiles) (acc ++ newFiles)
              (h.append (List.Sublist.refl newFiles))
          simpa [applyFileOps, applyFileOp, handleFilesAdded, insertedFiles,
            List.append_assoc] using step
      | remove index =>
          have hrem : (handleRemoveFile cur (index : Int)).Sublist acc :=
            (handleRemoveFile_sublist cur (index : Int)).trans h
          have step := ih (handleRemoveFile cur (index : Int)) acc hrem
          simpa [applyFileOps, applyFileOp, insertedFiles] using step

/-! ## Helper lemmas about the Query Input trim guard -/

/-- A list whose characters are all whitespace trims to the empty list. -/
theorem jsTrimList_eq_nil (l : List Char) (h : ∀ c ∈ l, isJsWhitespace c) :
    jsTrimList l = [] := by
  unfold jsTrimList
  rw [List.dropWhile_eq_nil_iff.mpr h]
  simp

/-- A non-whitespace member of a list survives `dropWhile isJsWhitespace`. -/
theorem mem_dropWhile_of_not_ws (l : List Char) (c : Char) (hc : c ∈ l)
    (hw : ¬ isJsWhitespace c) : c ∈ l.dropWhile isJsWhitespace := by
  have hsplit := List.takeWhile_append_dropWhile (p := isJsWhitespace) (l := l)
  rw [← hsplit] at hc
  rcases List.mem_append.mp hc with h | h
  · exact absurd (List.mem_takeWhile_imp h) (by simpa using hw)
  · exact h

/-- A list containing a non-whitespace character trims to a non-empty list. -/
theorem jsTrimList_ne_nil (l : List Char) (c : Char) (hc : c ∈ l)
    (hw : ¬ isJsWhitespace c) : jsTrimList l ≠ [] := by
  have h1 : c ∈ l.dropWhile isJsWhitespace := mem_dropWhile_of_not_ws l c hc hw
  have h2 : c ∈ (l.dropWhile isJsWhitespace).reverse := List.mem_reverse.mpr h1
  have h3 := mem_dropWhile_of_not_ws _ c h2 hw
  have h4 : c ∈ jsTrimList l := by
    unfold jsTrimList
    exact List.mem_reverse.mpr h3
  exact List.ne_nil_of_mem h4

/-! ## Helper lemma about the App shell -/

/-- Invariant of the App's hook state: `showResults` never holds without
`isInteracting`, since `handleQuerySubmit` is the only interaction that sets
either flag and it sets both. -/
theorem runApp_showResults_isInteracting (events : List AppEvent) :
    ∀ s : AppState, (s.showResults = true → s.isInteracting = true) →
      (runApp s events).showResults = true →
      (runApp s events).isInteracting = true := by
  induction events with
  | nil => intro s hs; simpa [runApp] using hs
  | cons ev evs ih =>
      intro s hs
      have hstep : runApp s (ev :: evs) = runApp (stepApp s ev) evs := rfl
      rw [hstep]
      apply ih
      cases ev with
      | querySubmit q =>
          intro _
          simp [stepApp, handleQuerySubmit]
      | setFiles fs =>
          intro hh
          exact hs (by simpa [stepApp] using hh)

/-! ## Claim theorems -/

/-- C6: the File Collector's `add` appends the new files at the end,
preserving their order and allowing duplicates; `remove(i)` at a valid
index deletes exactly the entry at that index, shifting subsequent indices
down by one; and any sequence of add/remove operations yields a list that
is the chronological insertion order with the removed entries excluded
(an order-preserving sublist of all insertions). -/
theorem fileCollector_ops :
    (∀ existing newFiles : List UploadedFile,
        handleFilesAdded existing newFiles = existing ++ newFiles)
    ∧ (∀ (xs : List UploadedFile) (i : Nat), i < xs.length →
        handleRemoveFile xs (i : Int) = xs.take i ++ xs.drop (i + 1))
    ∧ (∀ ops : List FileOp,
        (applyFileOps [] ops).Sublist (insertedFiles ops)) := by
  refine ⟨fun _ _ => rfl, fun xs i hi => handleRemoveFile_inBounds xs i hi,
    fun ops => ?_⟩
  simpa using applyFileOps_sublist ops [] [] (List.Sublist.refl [])

/-- Witness for C6: removing index 1 from a three-file list deletes exactly
the middle entry. -/
theorem fileCollector_ops_witness :
    handleRemoveFile
      [⟨"a.txt", 1, "text/plain"⟩, ⟨"b.txt", 2, "text/plain"⟩,
       ⟨"c.txt", 3, "text/plain"⟩] (1 : Int)
      = [⟨"a.txt", 1, "text/plain"⟩, ⟨"c.txt", 3, "text/plain"⟩] := by
  have h := fileCollector_ops.2.1
    [⟨"a.txt", 1, "text/plain"⟩, ⟨"b.txt", 2, "text/plain"⟩,
     ⟨"c.txt", 3, "text/plain"⟩] 1 (by decide)
  simpa using h

/-- C9: the File Collector's remove handler is total (the index filter
never faults); an out-of-bounds index — negative or at least the length —
leaves the list unchanged, and an in-bounds index removes exactly that one
entry. -/
theorem handleRemoveFile_total_safe (xs : List UploadedFile) (index : Int) :
    ((index < 0 ∨ (xs.length : Int) ≤ index) → handleRemoveFile xs index = xs)
    ∧ (∀ i : Nat, (i : Int) = index → i < xs.length →
        handleRemoveFile xs index = xs.take i ++ xs.drop (i + 1)) := by
  refine ⟨fun h => handleRemoveFile_outOfBounds xs index h,
    fun i hi hlen => ?_⟩
  rw [← hi]
  exact handleRemoveFile_inBounds xs i hlen

/-- Witness for C9: a negative index and a too-large index both leave a
one-file list unchanged, and index 0 removes the single entry. -/
theorem handleRemoveFile_total_safe_witness :
    handleRemoveFile [⟨"notes.txt", 10, "text/plain"⟩] (-1 : Int)
        = [⟨"notes.txt", 10, "text/plain"⟩]
    ∧ handleRemoveFile [⟨"notes.txt", 10, "text/plain"⟩] (5 : Int)
        = [⟨"notes.txt", 10, "text/plain"⟩]
    ∧ handleRemoveFile [⟨"notes.txt", 10, "text/plain"⟩] (0 : Int) = [] := by
  refine ⟨(handleRemoveFile_total_safe _ _).1 (Or.inl (by decide)),
    (handleRemoveFile_total_safe _ _).1 (Or.inr (by decide)), ?_⟩
  have h := (handleRemoveFile_total_safe
    [⟨"notes.txt", 10, "text/plain"⟩] (0 : Int)).2 0 rfl (by decide)
  simpa using h

/-- C10: the Query Input's submit handler never invokes the submission
callback on a query consisting only of whitespace (or empty), and on a
query with at least one non-whitespace character the callback receives the
original untrimmed query string. -/
theorem handleSubmit_guard (q : String) :
    ((∀ c ∈ q.data, isJsWhitespace c) → handleSubmit q = none)
    ∧ ((∃ c ∈ q.data, ¬ isJsWhitespace c) → handleSubmit q = some q) := by
  constructor
  · intro h
    simp [handleSubmit, jsTrimList_eq_nil q.data h]
  · rintro ⟨c, hc, hw⟩
    simp [handleSubmit, jsTrimList_ne_nil q.data c hc hw]

/-- Witness for C10: a whitespace-only query is dropped — including one
led by the ideographic space U+3000, which JS trim strips — and a padded
non-blank query is forwarded untrimmed. -/
theorem handleSubmit_guard_witness :
    handleSubmit "   " = none
    ∧ handleSubmit "　  " = none
    ∧ handleSubmit " build X " = some " build X " := by
  refine ⟨(handleSubmit_guard "   ").1 (by decide),
    (handleSubmit_guard "　  ").1 (by decide),
    (handleSubmit_guard " build X ").2 ⟨'b', by decide, by decide⟩⟩

/-- C7: a submission (effect run) with a non-empty file list issues exactly
one request: a POST to the configured base followed by
/api/recommendations, whose multipart body is the `query` text field
holding the submitted query followed by one `files` part per uploaded
file, in the files' original order. -/
theorem submit_issues_one_request (w : World) (sub : Submission)
    (h : sub.files ≠ []) :
    (stepWorld w (Event.submit sub)).requests
      = w.requests
        ++ [{ url := w.apiUrl ++ "/api/recommendations"
              method := "POST"
              body := ("query", FormValue.text sub.query)
                :: sub.files.map (fun f => ("files", FormValue.file f)) }] := by
  simp [stepWorld, h, mkRequest, mkFormData]

/-- Witness for C7: one concrete submission appends exactly one POST
request with the expected URL and form entries. -/
theorem submit_issues_one_request_witness :
    (stepWorld (initWorld "http://api")
      (Event.submit ⟨"What next?", [⟨"notes.txt", 10, "text/plain"⟩]⟩)).requests
      = [{ url := "http://api/api/recommendations"
           method := "POST"
           body := [("query", FormValue.text "What next?"),
             ("files", FormValue.file ⟨"notes.txt", 10, "text/plain"⟩)] }] := by
  have h := submit_issues_one_request (initWorld "http://api")
    ⟨"What next?", [⟨"notes.txt", 10, "text/plain"⟩]⟩ (by decide)
  rw [h]
  decide

/-- C1: evaluation of the code at the failing input.  Submitting the query
"What should we build next?" from the initial App state with zero files
uploaded issues no network request (the line-19 guard, fourth conjunct),
but it also displays no prompt-to-upload state: `handleQuerySubmit` sets
`isInteracting`, so the line-143 prompt branch — guarded by
`!isInteracting` — does not render, and neither does any results region
(first three conjuncts).  The final conjunct generalises this: the prompt
branch is unreachable after any sequence of App interactions. -/
theorem emptyFilesSubmissionHidesPrompt :
    showsUploadPrompt
        (handleQuerySubmit initAppState "What should we build next?") = false
    ∧ showsResultsInCard
        (handleQuerySubmit initAppState "What should we build next?") = false
    ∧ showsResultsAbove
        (handleQuerySubmit initAppState "What should we build next?") = false
    ∧ stepWorld (initWorld "")
        (Event.submit ⟨"What should we build next?", []⟩) = initWorld ""
    ∧ ∀ events : List AppEvent,
        showsUploadPrompt (runApp initAppState events) = false := by
  refine ⟨by decide, by decide, by decide, by decide, fun events => ?_⟩
  have hinv := runApp_showResults_isInteracting events initAppState
    (by intro hh; simp [initAppState] at hh)
  unfold showsUploadPrompt
  cases hsr : (runApp initAppState events).showResults
  · simp [hsr]
  · simp [hsr, hinv hsr]

/-- C2 counterexample: with submission A ("first query") followed by
submission B ("second query"), both carrying one file, and B's response
arriving before A's, the final displayed state is A's markdown — not B's.
The source applies response continuations unconditionally, so the claim
that the final state reflects B's outcome and never A's is false. -/
theorem staleResponse_counterexample :
    render (runWorld (initWorld "")
      [Event.submit ⟨"first query", [⟨"a.txt", 1, "text/plain"⟩]⟩,
       Event.submit ⟨"second query", [⟨"b.txt", 2, "text/plain"⟩]⟩,
       Event.respond 1 ⟨true, "OK", Body.json none (some "B result")⟩,
       Event.respond 0 ⟨true, "OK", Body.json none (some "A result")⟩]).comp
      = Display.successView "A result"
    ∧ Display.successView "A result" ≠ Display.successView "B result" := by
  decide

/-- C2 amended: the source performs no stale-response suppression — the
last-arriving response wins.  For submissions A then B (each with at least
one file) whose responses are both 2xx JSON successes, if A's response
arrives after B's, the final displayed state shows A's markdown, not
B's. -/
theorem lastArrivingResponseWins (apiUrl : String) (subA subB : Submission)
    (stB stA : String) (dB dA recsB : Option String) (mA : String)
    (hA : subA.files ≠ []) (hB : subB.files ≠ []) (hmA : mA ≠ "") :
    render (runWorld (initWorld apiUrl)
      [Event.submit subA, Event.submit subB,
       Event.respond 1 ⟨true, stB, Body.json dB recsB⟩,
       Event.respond 0 ⟨true, stA, Body.json dA (some mA)⟩]).comp
      = Display.successView mA := by
  simp [runWorld, stepWorld, hA, hB, initWorld, initResultsState,
    fetchStart, applyResponse, render, strTruthy, hmA]

/-- Witness for C2's amended theorem at a concrete pair of submissions. -/
theorem lastArrivingResponseWins_witness :
    render (runWorld (initWorld "")
      [Event.submit ⟨"q one", [⟨"x.txt", 1, "text/plain"⟩]⟩,
       Event.submit ⟨"q two", [⟨"y.txt", 2, "text/plain"⟩]⟩,
       Event.respond 1 ⟨true, "OK", Body.json none (some "second result")⟩,
       Event.respond 0 ⟨true, "OK", Body.json none (some "first result")⟩]).comp
      = Display.successView "first result" :=
  lastArrivingResponseWins "" ⟨"q one", [⟨"x.txt", 1, "text/plain"⟩]⟩
    ⟨"q two", [⟨"y.txt", 2, "text/plain"⟩]⟩ "OK" "OK" none none
    (some "second result") "first result" (by decide) (by decide) (by decide)

/-- C3 counterexample: a non-2xx response whose JSON body contains the
`detail` string `""` yields the generic fallback message, not that string:
`err.detail || 'Failed to get recommendations'` treats the empty string as
falsy.  So "message exactly that string" fails for the empty detail. -/
theorem emptyDetail_counterexample :
    (applyResponse (fetchStart initResultsState)
        ⟨false, "Bad Request", Body.json (some "") none⟩).error
      = some "Failed to get recommendations"
    ∧ ¬ (applyResponse (fetchStart initResultsState)
        ⟨false, "Bad Request", Body.json (some "") none⟩).error = some "" := by
  decide

/-- C3 amended: for every non-2xx response, if the body is JSON containing
a non-empty `detail` string the orchestrator moves to the Error state with
exactly that message; if the body is unparsable it moves to Error with the
status text when non-empty, else the generic fallback; and in every case
the catch block yields an Error state with a non-empty message and a
finished (non-loading) component — no uncaught fault escapes. -/
theorem errorSurfacing_amended (s : ResultsState) (res : HttpResponse)
    (hok : res.ok = false) :
    (∀ (d : String) (recs : Option String),
        res.body = Body.json (some d) recs → d ≠ "" →
        applyResponse s res = { s with error := some d, loading := false })
    ∧ (∀ m : String, res.body = Body.malformed m →
        applyResponse s res
          = { s with
              error := some (if res.statusText = ""
                then "Failed to get recommendations" else res.statusText)
              loading := false })
    ∧ (∃ msg : String, msg ≠ "" ∧ (applyResponse s res).error = some msg
        ∧ (applyResponse s res).loading = false
        ∧ render (applyResponse s res) = Display.errorView msg) := by
  refine ⟨?_, ?_, ?_⟩
  · intro d recs hbody hd
    simp [applyResponse, hok, hbody, hd]
  · intro m hbody
    simp [applyResponse, hok, hbody]
  · cases hbody : res.body with
    | malformed m =>
        by_cases hst : res.statusText = ""
        · exact ⟨"Failed to get recommendations", by decide,
            by simp [applyResponse, hok, hbody, hst],
            by simp [applyResponse, hok, hbody],
            by simp [applyResponse, hok, hbody, hst, render, strTruthy]⟩
        · exact ⟨res.statusText, hst,
            by simp [applyResponse, hok, hbody, hst],
            by simp [applyResponse, hok, hbody],
            by simp [applyResponse, hok, hbody, hst, render, strTruthy]⟩
    | json d recs =>
        cases d with
        | none =>
            exact ⟨"Failed to get recommendations", by decide,
              by simp [applyResponse, hok, hbody],
              by simp [applyResponse, hok, hbody],
              by simp [applyResponse, hok, hbody, render, strTruthy]⟩
        | some d' =>
            by_cases hd : d' = ""
            · exact ⟨"Failed to get recommendations", by decide,
                by simp [applyResponse, hok, hbody, hd],
                by simp [applyResponse, hok, hbody],
                by simp [applyResponse, hok, hbody, hd, render, strTruthy]⟩
            · exact ⟨d', hd,
                by simp [applyResponse, hok, hbody, hd],
                by simp [applyResponse, hok, hbody],
                by simp [applyResponse, hok, hbody, hd, render, strTruthy]⟩

/-- Witness for C3's amended theorem: the body `{"detail":"rate limited"}`
on a non-2xx response surfaces exactly "rate limited". -/
theorem errorSurfacing_amended_witness :
    applyResponse initResultsState
        ⟨false, "Internal Server Error", Body.json (some "rate limited") none⟩
      = { recommendations := none, loading := false,
          error := some "rate limited" } := by
  have h := (errorSurfacing_amended initResultsState
    ⟨false, "Internal Server Error", Body.json (some "rate limited") none⟩
    rfl).1 "rate limited" none rfl (by decide)
  rw [h]
  decide

/-- C4 counterexample: a 2xx response whose body is valid JSON lacking the
`recommendations` field does not move the orchestrator to the Error state:
`setRecommendations(data.recommendations)` stores `undefined`, the error
hook stays null, and the component renders `null` — the silent blank
state the claim excludes. -/
theorem missingField_counterexample :
    render (applyResponse (fetchStart initResultsState)
        ⟨true, "OK", Body.json none none⟩) = Display.blank
    ∧ (applyResponse (fetchStart initResultsState)
        ⟨true, "OK", Body.json none none⟩).error = none := by
  decide

/-- C4 amended: for a 2xx response decoded against a just-submitted state
(error cleared): if the body is not valid JSON, the orchestrator moves to
the Error state carrying the JSON parse-failure message; if the body is
valid JSON lacking the `recommendations` field, the recommendations hook
is left unset, no error is raised, and the component renders the blank
(null) state — not Error and not Success. -/
theorem malformedResponse_amended (s : ResultsState) (res : HttpResponse)
    (hok : res.ok = true) (herr : s.error = none) :
    (∀ m : String, res.body = Body.malformed m → m ≠ "" →
        applyResponse s res = { s with error := some m, loading := false }
        ∧ render (applyResponse s res) = Display.errorView m)
    ∧ (∀ d : Option String, res.body = Body.json d none →
        (applyResponse s res).recommendations = none
        ∧ (applyResponse s res).error = none
        ∧ render (applyResponse s res) = Display.blank) := by
  constructor
  · intro m hbody hm
    constructor
    · simp [applyResponse, hok, hbody]
    · simp [applyResponse, hok, hbody, render, strTruthy, hm]
  · intro d hbody
    refine ⟨?_, ?_, ?_⟩ <;>
      simp [applyResponse, hok, hbody, render, strTruthy, herr]

/-- Witness for C4's amended theorem: a 2xx body with only a `detail`
field (no `recommendations`) renders the blank state. -/
theorem malformedResponse_amended_witness :
    render (applyResponse (fetchStart initResultsState)
      ⟨true, "OK", Body.json (some "ignored") none⟩) = Display.blank :=
  ((malformedResponse_amended (fetchStart initResultsState)
    ⟨true, "OK", Body.json (some "ignored") none⟩ rfl rfl).2
    (some "ignored") rfl).2.2

/-- C5 counterexample: a reachable orchestrator state displays none of the
three claimed variants {Loading, Error, Success}: after a submission with
one file and a 2xx response lacking the `recommendations` field, the
component renders the blank (null) state — a fourth variant outside the
claimed three-way union. -/
theorem blankState_counterexample :
    isUnionVariant (render (runWorld (initWorld "")
      [Event.submit ⟨"build priorities", [⟨"notes.txt", 4, "text/plain"⟩]⟩,
       Event.respond 0 ⟨true, "OK", Body.json none none⟩]).comp) = false := by
  decide

/-- C5 amended: every hook state displays exactly one of FOUR variants —
Loading, Error, Blank (the `return null` branch), Success — and every new
submission with at least one file resets the display to Loading, clearing
the error hook; the previous recommendations text is retained in the hook
(not discarded) but is superseded on screen by the Loading view. -/
theorem displayInvariant_amended :
    (∀ s : ResultsState,
        (showsLoading s).toNat + (showsError s).toNat
          + (showsBlankState s).toNat + (showsSuccess s).toNat = 1)
    ∧ (∀ (w : World) (sub : Submission), sub.files ≠ [] →
        render (stepWorld w (Event.submit sub)).comp = Display.loadingView
        ∧ (stepWorld w (Event.submit sub)).comp.error = none
        ∧ (stepWorld w (Event.submit sub)).comp.recommendations
            = w.comp.recommendations) := by
  constructor
  · intro s
    unfold showsLoading showsError showsBlankState showsSuccess
    cases hl : s.loading <;>
      cases he : strTruthy s.error <;>
        cases hr : strTruthy s.recommendations <;> simp [hl, he, hr]
  · intro w sub h
    refine ⟨?_, ?_, ?_⟩ <;> simp [stepWorld, h, fetchStart, render]

/-- Witness for C5's amended theorem: a concrete submission resets the
display to the Loading view. -/
theorem displayInvariant_amended_witness :
    render (stepWorld (initWorld "")
      (Event.submit ⟨"roadmap?", [⟨"plan.md", 7, "text/markdown"⟩]⟩)).comp
      = Display.loadingView :=
  (displayInvariant_amended.2 (initWorld "")
    ⟨"roadmap?", [⟨"plan.md", 7, "text/markdown"⟩]⟩ (by decide)).1

end AutoPM
